import Mathlib

/-!
Verification of the vm-mad elastic-capacity orchestrator simulation
(`vmmad/simul.py`) against its natural-language specification.

The Python code of `OrchestratorSimulation` is shallowly embedded below:
pure decision functions become Lean functions, the per-cycle mutation of
the orchestrator state (`jobs` / `vms` / `candidates`) becomes explicit
state passing, and Python's `assert` / `ValidationError` failures become
`Except` results.  Parts of the repository that are referenced but whose
source is not available (the base `Orchestrator` class, `VmInfo`
construction, the `DummyCloud` provider) are modelled from the
specification; each such definition is marked `Modelled from the spec:`.
-/

namespace VmMad

/-- VM lifecycle states (`VmInfo.STARTING / READY / STOPPING`). -/
inductive VmState where
  | STARTING
  | READY
  | STOPPING
  deriving DecidableEq, Repr

/-- Job lifecycle states (`JobInfo.PENDING / RUNNING / DONE`). -/
inductive JobState where
  | PENDING
  | RUNNING
  | DONE
  deriving DecidableEq, Repr

/-- A job record, as held in the orchestrator's `self.jobs` table. -/
structure JobInfo where
  jobid : Nat
  state : JobState
  submitted_at : Int
  running_at : Option Int
  exec_node_name : Option String
  deriving DecidableEq, Repr

/-- A VM record, as held in the orchestrator's `self.vms` table.
`jobs` is the set of assigned job ids (`vm.jobs` in the source, a Python
set, embedded as a duplicate-free list via `List.insert`);
`last_idle` is the signed idle counter; `ever_running` marks permanent
cluster nodes that must never be auto-stopped. -/
structure VmInfo where
  vmid : String
  state : VmState
  jobs : List Nat
  last_idle : Int
  ever_running : Bool
  nodename : Option String
  deriving DecidableEq, Repr

/-- One job line as reported by the batch system each cycle
(`BatchSystem.pollJobs` output). -/
structure JobSnapshot where
  id : Nat
  state : JobState
  submitted_at : Int
  deriving DecidableEq, Repr

/-- The mutable orchestrator state threaded through one cycle:
the jobs table, the candidate list (job ids of `PENDING` cloud-eligible
jobs, recomputed each cycle), the VM table, and the counter used to
assign fresh VM ids. -/
structure SimState where
  jobs : List JobInfo
  candidates : List Nat
  vms : List VmInfo
  next_vmid : Nat
  deriving DecidableEq, Repr

/-- Configuration fixed at construction: `max_vms`, `max_delta`,
`max_idle` (idle-time threshold for stopping) and `startup_delay`. -/
structure Config where
  max_vms : Nat
  max_delta : Nat
  max_idle : Int
  startup_delay : Int
  deriving DecidableEq, Repr

/-!  ## Policy functions (from `simul.py`, lines 176-188) -/

/-- Embedding of `OrchestratorSimulation.is_cloud_candidate`: every job is a candidate
in this simulation (`return True`). -/
def is_cloud_candidate (_job : JobInfo) : Bool :=
  true

/-- Embedding of `OrchestratorSimulation.is_new_vm_needed`:
`if len(self.candidates) > 2 * len(self.vms): return True`.
The Python function has no `else` branch, so in all other cases it falls
off the end and returns `None`; this is embedded as `Option Bool`, with
`none` standing for Python's `None`. -/
def is_new_vm_needed (ncandidates nvms : Nat) : Option Bool :=
  if ncandidates > 2 * nvms then some true else none

/-- Embedding of `OrchestratorSimulation.can_vm_be_stopped`: true iff the VM is not
`ever_running`, its `last_idle` strictly exceeds `max_idle`, and it has
no assigned jobs. -/
def can_vm_be_stopped (max_idle : Int) (vm : VmInfo) : Bool :=
  if ¬vm.ever_running ∧ vm.last_idle > max_idle ∧ vm.jobs.length = 0 then
    true
  else
    false

/-!  ## Stopping a VM (`simul.py`, lines 201-206) -/

/-- A call issued to the (simulated) cloud provider. -/
inductive ProviderCall where
  | stopRequest (vmid : String)
  deriving DecidableEq, Repr

/-- Modelled from the spec: `DummyCloud.stop_vm` (the provider driver is
not part of the available sources).  Per the spec, `stopVM` forwards the
termination request to the provider; the embedding records the forwarded
request. -/
def dummyCloud_stop_vm (vm : VmInfo) : List ProviderCall :=
  [ProviderCall.stopRequest vm.vmid]

/-- The outcome of an accepted stop request: the provider calls issued,
the boolean result of `stop_vm`, and the VM record as left behind. -/
structure StopOutcome where
  calls : List ProviderCall
  accepted : Bool
  vm : VmInfo
  deriving DecidableEq, Repr

/-- Embedding of `OrchestratorSimulation.stop_vm`: asserts that the VM is not marked
`ever_running` (the assertion failure is embedded as `Except.error`),
then forwards the request to `DummyCloud.stop_vm` and returns `True`. -/
def stop_vm (vm : VmInfo) : Except String StopOutcome :=
  if vm.ever_running then
    Except.error ("Request to stop VM " ++ vm.vmid ++
      " which is marked as ever running")
  else
    Except.ok { calls := dummyCloud_stop_vm vm, accepted := true, vm := vm }

/-!  ## Readiness countdown for STARTING VMs (`simul.py`, lines 111-120) -/

/-- Modelled from the spec: `Orchestrator.vm_is_ready` (base-class code
not in the available sources).  Per the spec, the ready notification
transitions a `STARTING` record to `READY`, clears its idle counter to 0
and records the scheduler-visible node name. -/
def vm_is_ready (vm : VmInfo) : VmInfo :=
  { vm with
    state := VmState.READY
    last_idle := 0
    nodename := some ("vm-" ++ vm.vmid) }

/-- One pass of the simulated ready-notification loop for a single VM
(`simul.py` lines 112-120): for a `STARTING` VM, if `last_idle >= 0`
report it ready, otherwise increment `last_idle`; other VMs untouched. -/
def stepStartingVm (vm : VmInfo) : VmInfo :=
  if vm.state = VmState.STARTING then
    if vm.last_idle ≥ 0 then
      vm_is_ready vm
    else
      { vm with last_idle := vm.last_idle + 1 }
  else
    vm

/-- The readiness-countdown part of
`OrchestratorSimulation.update_job_status`, applied to the whole table. -/
def startingStep (s : SimState) : SimState :=
  { s with vms := s.vms.map stepStartingVm }

/-!  ## Dispatch (`simul.py`, lines 122-135) -/

/-- The field updates performed on a dispatched job (`simul.py` lines
129-131): `job.state = RUNNING`, `job.exec_node_name = vm.nodename`,
`job.running_at = self.time()`. -/
def runningUpdate (node : Option String) (t : Int) (job : JobInfo) :
    JobInfo :=
  { job with
    state := JobState.RUNNING
    exec_node_name := node
    running_at := some t }

/-- Mark job `j` as `RUNNING` on `node` at time `t` in the jobs table
(the source mutates the shared `JobInfo` object popped from
`self.candidates`, which is the same object stored in `self.jobs`). -/
def setRunning (jobs : List JobInfo) (j : Nat) (node : Option String)
    (t : Int) : List JobInfo :=
  jobs.map (fun job =>
    if job.jobid = j then runningUpdate node t job else job)

/-- The dispatch loop of `OrchestratorSimulation.update_job_status`
(`simul.py` lines 122-135): iterate over the VM table; for each `READY`
VM with empty `jobs`, if `candidates` is empty stop (Python `break`,
leaving the remaining VMs untouched), otherwise pop the last candidate
(`self.candidates.pop()`), mark that job `RUNNING` with the VM's node
name and the current time, and add its id to the VM's job set.
Returns the remaining candidates, the updated jobs table and the updated
VM table. -/
def dispatchVms (t : Int) :
    List VmInfo → List Nat → List JobInfo →
      List Nat × List JobInfo × List VmInfo
  | [], cands, jobs => (cands, jobs, [])
  | vm :: rest, cands, jobs =>
    if vm.state = VmState.READY ∧ vm.jobs = [] then
      match cands.getLast? with
      | none => (cands, jobs, vm :: rest)
      | some j =>
        let out := dispatchVms t rest cands.dropLast
          (setRunning jobs j vm.nodename t)
        (out.1, out.2.1, { vm with jobs := vm.jobs.insert j } :: out.2.2)
    else
      let out := dispatchVms t rest cands jobs
      (out.1, out.2.1, vm :: out.2.2)

/-- The dispatch pass lifted to the orchestrator state. -/
def dispatchStep (t : Int) (s : SimState) : SimState :=
  let out := dispatchVms t s.vms s.candidates s.jobs
  { s with candidates := out.1, jobs := out.2.1, vms := out.2.2 }

/-!  ## Job refresh (base-class `Orchestrator.update_job_status`) -/

/-- Numeric rank of a job state along the only allowed progression
`PENDING → RUNNING → DONE`. -/
def stateRank : JobState → Nat
  | JobState.PENDING => 0
  | JobState.RUNNING => 1
  | JobState.DONE => 2

/-- Modelled from the spec: the merge rule of `refreshJobs` — a job
record's state only ever advances `PENDING → RUNNING → DONE`; a
batch-reported state behind the recorded one is ignored. -/
def mergeJob (job : JobInfo) (snap : JobSnapshot) : JobInfo :=
  if stateRank snap.state > stateRank job.state then
    { job with state := snap.state }
  else
    job

/-- Modelled from the spec: merging one batch-reported job line into the
jobs table — update the existing record (advance-only) if the id is
present, otherwise create a new record from the snapshot. -/
def applySnapshot (jobs : List JobInfo) (snap : JobSnapshot) : List JobInfo :=
  if jobs.any (fun job => job.jobid == snap.id) then
    jobs.map (fun job => if job.jobid = snap.id then mergeJob job snap else job)
  else
    jobs ++ [{ jobid := snap.id, state := snap.state,
               submitted_at := snap.submitted_at, running_at := none,
               exec_node_name := none }]

/-- Modelled from the spec: the base-class part of `update_job_status`
(`Orchestrator.update_job_status`, called at `simul.py` line 105 but not
in the available sources) — pull current job states from the batch
system, merge them into `jobs` (state only ever advances), and recompute
`candidates` as the `PENDING` jobs for which `is_cloud_candidate`
holds. -/
def refreshJobs (s : SimState) (batch : List JobSnapshot) : SimState :=
  let jobs := batch.foldl applySnapshot s.jobs
  { s with
    jobs := jobs
    candidates :=
      (jobs.filter
        (fun job => job.state == JobState.PENDING && is_cloud_candidate job)).map
        (fun job => job.jobid) }

/-!  ## VM creation (`simul.py`, lines 169-170) -/

/-- The keyword arguments accepted by `new_vm`; a field left `none` was
not supplied by the caller. -/
structure VmAttrs where
  state : Option VmState := none
  nodename : Option String := none
  ever_running : Option Bool := none
  last_idle : Option Int := none
  deriving DecidableEq, Repr

/-- Modelled from the spec: `Orchestrator.new_vm` (base-class code not in
the available sources) — create a fresh VM record, by default in
`STARTING` with an empty job set, a zero idle counter and no node name,
applying whatever keyword attributes the caller supplied. -/
def orchestrator_new_vm (vmid : String) (attrs : VmAttrs) : VmInfo :=
  { vmid := vmid
    state := attrs.state.getD VmState.STARTING
    jobs := []
    last_idle := attrs.last_idle.getD 0
    ever_running := attrs.ever_running.getD false
    nodename := attrs.nodename }

/-- Embedding of `OrchestratorSimulation.new_vm` (`simul.py` lines 169-170): the
override discards the caller-supplied `attrs` and calls the base
`new_vm` with exactly `ever_running=False` and
`last_idle=-self.startup_delay`. -/
def sim_new_vm (startup_delay : Int) (vmid : String) (_attrs : VmAttrs) :
    VmInfo :=
  orchestrator_new_vm vmid
    { ever_running := some false, last_idle := some (-startup_delay) }

/-!  ## Scale-out / scale-in (the run loop of the base `Orchestrator`) -/

/-- Modelled from the spec: the scale-out step of the control loop — if
`Policy.isNewVMNeeded()` is truthy, start new VMs through `new_vm`, up to
the `maxDelta` per-cycle budget and never exceeding `maxVms` records. -/
def scaleOut (cfg : Config) (s : SimState) : SimState :=
  if (is_new_vm_needed s.candidates.length s.vms.length).getD false then
    let k := min cfg.max_delta (cfg.max_vms - s.vms.length)
    { s with
      vms := s.vms ++ (List.range k).map
        (fun i => sim_new_vm cfg.startup_delay (toString (s.next_vmid + i)) {})
      next_vmid := s.next_vmid + k }
  else
    s

/-- Modelled from the spec: the scale-in step of the control loop —
remove (stop) the VMs for which `Policy.canVMBeStopped` holds, up to the
`maxDelta` per-cycle stop budget. -/
def removeStoppable (budget : Nat) (max_idle : Int) :
    List VmInfo → List VmInfo
  | [] => []
  | vm :: rest =>
    if budget > 0 ∧ can_vm_be_stopped max_idle vm = true then
      removeStoppable (budget - 1) max_idle rest
    else
      vm :: removeStoppable budget max_idle rest

/-- Scale-in lifted to the orchestrator state. -/
def scaleIn (cfg : Config) (s : SimState) : SimState :=
  { s with vms := removeStoppable cfg.max_delta cfg.max_idle s.vms }

/-!  ## One cycle of the control loop -/

/-- The external inputs of one cycle: the batch-system report and the
current simulated time. -/
structure CycleInput where
  batch : List JobSnapshot
  tnow : Int
  deriving DecidableEq, Repr

/-- One cycle of the control loop, in the order of the spec and of
`OrchestratorSimulation.update_job_status`: refresh the jobs table and
the candidate list, run the simulated ready-notification countdown, run
the dispatch pass, then scale out and scale in. -/
def cycle (cfg : Config) (s : SimState) (inp : CycleInput) : SimState :=
  scaleIn cfg
    (scaleOut cfg
      (dispatchStep inp.tnow
        (startingStep
          (refreshJobs s inp.batch))))

/-- Run a sequence of cycles with the given per-cycle inputs. -/
def runCycles (cfg : Config) (s : SimState) (inps : List CycleInput) :
    SimState :=
  inps.foldl (cycle cfg) s

/-!  ## The `before` hook (`simul.py`, lines 138-159) -/

/-- The harness state the `before` hook reads: the size of the jobs
table, the number of future jobs still held by the replaying batch
system, and whether the output file is open. -/
structure HarnessState where
  jobs_count : Nat
  future_jobs_count : Nat
  output_open : Bool
  deriving DecidableEq, Repr

/-- The outcome of the `before` hook: either a clean termination
(`sys.exit(0)` after closing the output file) with the final harness
state, or the loop proceeds with the harness state unchanged (the hook
then only writes a report row and logs). -/
inductive BeforeResult where
  | exited (code : Nat) (final : HarnessState)
  | proceeded (final : HarnessState)
  deriving DecidableEq, Repr

/-- Embedding of `OrchestratorSimulation.before` (`simul.py` lines 138-143): when the
jobs table is empty and the batch system holds no future jobs, close the
output file and exit cleanly with status 0; otherwise continue (the
remainder of the hook only writes a CSV row and a log line). -/
def before (h : HarnessState) : BeforeResult :=
  if h.jobs_count = 0 ∧ h.future_jobs_count = 0 then
    BeforeResult.exited 0 { h with output_open := false }
  else
    BeforeResult.proceeded h

/-!  ## VmInfo construction (`test_vminfo.py`) -/

/-- The error raised on malformed record construction. -/
inductive ValidationError where
  | missingVmId
  deriving DecidableEq, Repr

/-- The full attribute bag handed to the `VmInfo` constructor; `vmid` is
the required attribute. -/
structure VmCtorAttrs where
  vmid : Option String := none
  state : Option VmState := none
  nodename : Option String := none
  ever_running : Option Bool := none
  last_idle : Option Int := none
  deriving DecidableEq, Repr

/-- Modelled from the spec: the `VmInfo` constructor (the `orchestrator`
module is not in the available sources; `test_vminfo.py` checks that
construction without a `vmid` raises).  Construction fails fast with a
validation error when no `vmid` is supplied, so no record is produced
that could enter the VM table. -/
def VmInfo.make (attrs : VmCtorAttrs) : Except ValidationError VmInfo :=
  match attrs.vmid with
  | none => Except.error ValidationError.missingVmId
  | some id =>
    Except.ok
      { vmid := id
        state := attrs.state.getD VmState.STARTING
        jobs := []
        last_idle := attrs.last_idle.getD 0
        ever_running := attrs.ever_running.getD false
        nodename := attrs.nodename }

/-!  ## The state-passing view of the policy functions

The Python policy methods read the orchestrator state (`self.candidates`,
`self.vms`, `self.max_idle`) but contain no assignment to it; the
embedding below threads the state through each call explicitly so that
the frame condition (the state component of the result equals the input
state) is a statement about the code, not a convention. -/

/-- Embedding of `is_cloud_candidate` with the orchestrator state threaded through. -/
def is_cloud_candidateS (s : SimState) (job : JobInfo) : Bool × SimState :=
  (is_cloud_candidate job, s)

/-- Embedding of `is_new_vm_needed` with the orchestrator state threaded through; the
Python body reads `len(self.candidates)` and `len(self.vms)`. -/
def is_new_vm_neededS (s : SimState) : Option Bool × SimState :=
  (is_new_vm_needed s.candidates.length s.vms.length, s)

/-- Embedding of `can_vm_be_stopped` with the orchestrator state threaded through; the
Python body reads `self.max_idle` and the fields of `vm`. -/
def can_vm_be_stoppedS (max_idle : Int) (s : SimState) (vm : VmInfo) :
    Bool × SimState :=
  (can_vm_be_stopped max_idle vm, s)

/-!  ## The reachability invariant -/

/-- The jobs table holds job `j` in state `PENDING`. -/
def isPendingIn (jobs : List JobInfo) (j : Nat) : Bool :=
  match jobs.find? (fun job => job.jobid == j) with
  | some job => job.state == JobState.PENDING
  | none => false

/-- The jobs table holds job `j` in a state past `PENDING` (so `j` can
never re-enter the candidate list). -/
def assignedOk (jobs : List JobInfo) (j : Nat) : Bool :=
  match jobs.find? (fun job => job.jobid == j) with
  | some job => !(job.state == JobState.PENDING)
  | none => false

/-- The orchestrator bookkeeping invariant: the job ids assigned across
all VMs are pairwise distinct (no double dispatch); every assigned job id
is recorded in the jobs table in a state past `PENDING`; the candidate
list is duplicate-free and holds only ids of `PENDING` table jobs; and
the jobs table has duplicate-free ids. -/
def Inv (s : SimState) : Prop :=
  ((s.vms.map (fun v => v.jobs)).flatten).Nodup ∧
  (∀ vm ∈ s.vms, ∀ j ∈ vm.jobs, assignedOk s.jobs j = true) ∧
  s.candidates.Nodup ∧
  (∀ j ∈ s.candidates, isPendingIn s.jobs j = true) ∧
  (s.jobs.map (fun job => job.jobid)).Nodup

instance (s : SimState) : Decidable (Inv s) := by
  unfold Inv
  infer_instance

/-!  ## Concrete records used in scenario checks -/

/-- A `STARTING` VM whose countdown starts at `-2` (Scenario A of the
spec, with `startup_delay = 2`). -/
def startingVmMinusTwo : VmInfo :=
  { vmid := "0", state := VmState.STARTING, jobs := [], last_idle := -2,
    ever_running := false, nodename := none }

/-- A pending job with id 7. -/
def job7 : JobInfo :=
  { jobid := 7, state := JobState.PENDING, submitted_at := 0,
    running_at := none, exec_node_name := none }

/-- A `READY`, idle, non-permanent VM whose idle counter stands at 5. -/
def vmReady5 : VmInfo :=
  { vmid := "r", state := VmState.READY, jobs := [], last_idle := 5,
    ever_running := false, nodename := some "node-r" }

/-- Every field of a VM record except its assigned-jobs set; the
dispatch pass may change only the `jobs` field. -/
def vmShell (v : VmInfo) :
    String × VmState × Int × Bool × Option String :=
  (v.vmid, v.state, v.last_idle, v.ever_running, v.nodename)

/-- A small configuration used to instantiate the reachability
theorems. -/
def demoCfg : Config :=
  { max_vms := 10, max_delta := 1, max_idle := 7200, startup_delay := 60 }

/-- An initial orchestrator state as built by the simulation
constructor: one permanent cluster node, empty jobs table, no
candidates. -/
def demoState : SimState :=
  { jobs := []
    candidates := []
    vms := [{ vmid := "clusternode-0", state := VmState.READY, jobs := [],
              last_idle := 0, ever_running := true,
              nodename := some "clusternode-0" }]
    next_vmid := 0 }

/-- One cycle of input: the batch system reports a single pending job. -/
def demoInps : List CycleInput :=
  [{ batch := [{ id := 1, state := JobState.PENDING, submitted_at := 0 }],
     tnow := 3600 }]

/-!  # Theorems -/

/-- C2: `can_vm_be_stopped(vm)` returns `True` iff the VM is not
permanent (`ever_running = false`), has no assigned jobs, and its idle
counter strictly exceeds `max_idle`; in particular it is `True` for a
non-permanent empty-jobs VM with threshold 3 and idle counter 4, and it
is never `True` for a permanent VM. -/
theorem can_vm_be_stopped_spec (max_idle : Int) (vm : VmInfo) :
    (can_vm_be_stopped max_idle vm = true ↔
      vm.ever_running = false ∧ vm.jobs = [] ∧ max_idle < vm.last_idle) ∧
    (vm.ever_running = true → can_vm_be_stopped max_idle vm = false) ∧
    can_vm_be_stopped 3
      { vmid := "n", state := VmState.READY, jobs := [], last_idle := 4,
        ever_running := false, nodename := none } = true := by
  refine ⟨?_, ?_, by decide⟩
  · unfold can_vm_be_stopped
    split
    next h =>
      exact iff_of_true rfl
        ⟨by simpa using h.1, List.length_eq_zero.mp h.2.2, h.2.1⟩
    next h =>
      refine iff_of_false (by simp) ?_
      rintro ⟨h1, h2, h3⟩
      exact h ⟨by simp [h1], h3, by simp [h2]⟩
  · intro h
    unfold can_vm_be_stopped
    split
    next hc => exact absurd h (by simpa using hc.1)
    next => rfl

/-- C2 witness: the theorem evaluated at the permanent VM of the spec
invariant and at the Scenario B instance. -/
theorem can_vm_be_stopped_spec_witness :
    can_vm_be_stopped 3
      { vmid := "p", state := VmState.READY, jobs := [], last_idle := 10,
        ever_running := true, nodename := none } = false ∧
    can_vm_be_stopped 3
      { vmid := "n", state := VmState.READY, jobs := [], last_idle := 4,
        ever_running := false, nodename := none } = true :=
  ⟨(can_vm_be_stopped_spec 3
      { vmid := "p", state := VmState.READY, jobs := [], last_idle := 10,
        ever_running := true, nodename := none }).2.1 rfl,
   (can_vm_be_stopped_spec 3
      { vmid := "n", state := VmState.READY, jobs := [], last_idle := 4,
        ever_running := false, nodename := none }).2.2⟩

/-- C3: `stop_vm(vm)` fails on a permanent (`ever_running`) VM — the
request never produces an accepted outcome, so nothing is forwarded to
the provider and the record is left unchanged — and for every
non-permanent VM it forwards exactly one stop request to the provider,
returns `True`, and leaves the record as it was. -/
theorem stop_vm_spec (vm : VmInfo) :
    (vm.ever_running = true →
      (∀ out : StopOutcome, stop_vm vm ≠ Except.ok out)) ∧
    (vm.ever_running = false →
      stop_vm vm = Except.ok
        { calls := [ProviderCall.stopRequest vm.vmid], accepted := true,
          vm := vm }) := by
  constructor
  · intro h out
    unfold stop_vm
    rw [h]
    simp
  · intro h
    unfold stop_vm dummyCloud_stop_vm
    rw [h]
    simp

/-- C3 witness: the theorem evaluated at a permanent and at a
non-permanent VM. -/
theorem stop_vm_spec_witness :
    (∀ out : StopOutcome,
      stop_vm { vmid := "p", state := VmState.READY, jobs := [],
                last_idle := 0, ever_running := true, nodename := none } ≠
        Except.ok out) ∧
    stop_vm { vmid := "q", state := VmState.READY, jobs := [],
              last_idle := 0, ever_running := false, nodename := none } =
      Except.ok
        { calls := [ProviderCall.stopRequest "q"], accepted := true,
          vm := { vmid := "q", state := VmState.READY, jobs := [],
                  last_idle := 0, ever_running := false, nodename := none } } :=
  ⟨(stop_vm_spec _).1 rfl, (stop_vm_spec _).2 rfl⟩

/-- C6 counterexample: `is_new_vm_needed` does not return a boolean in
the not-needed case — with 4 candidates and 2 VMs (4 ≤ 2·2) the Python
function falls off the end and returns `None`, not `False`. -/
theorem is_new_vm_needed_not_false :
    is_new_vm_needed 4 2 = none ∧ (none : Option Bool) ≠ some false := by
  decide

/-- C6 (amended): `is_new_vm_needed()` returns `True` exactly when the
number of candidates strictly exceeds twice the number of VMs (so with 5
candidates and 2 VMs it returns `True`, since 5 > 4), and returns `None`
(a falsy non-boolean) otherwise. -/
theorem is_new_vm_needed_spec (ncandidates nvms : Nat) :
    (is_new_vm_needed ncandidates nvms = some true ↔
      2 * nvms < ncandidates) ∧
    (ncandidates ≤ 2 * nvms → is_new_vm_needed ncandidates nvms = none) ∧
    is_new_vm_needed 5 2 = some true := by
  refine ⟨?_, ?_, by decide⟩
  · unfold is_new_vm_needed
    split
    next h => simpa using h
    next h => simpa using h
  · intro h
    unfold is_new_vm_needed
    split
    next hc => omega
    next => rfl

/-- C6 witness: the theorem evaluated at 4 candidates and 2 VMs. -/
theorem is_new_vm_needed_spec_witness : is_new_vm_needed 4 2 = none :=
  (is_new_vm_needed_spec 4 2).2.1 (by decide)

/-- C5 counterexample: a `STARTING` VM whose idle counter is `-2` has
not transitioned to `READY` after 2 passes of the readiness countdown —
its counter has only just reached 0, and the ready notification fires on
the following pass. -/
theorem starting_vm_not_ready_after_two :
    (stepStartingVm (stepStartingVm startingVmMinusTwo)).state ≠
      VmState.READY := by
  decide

/-- C5 (amended): each pass advances a `STARTING` VM's negative idle
counter by one (leaving the state `STARTING`), and a `STARTING` VM whose
counter has reached 0 or above is reported ready (transitioned to
`READY`) on the current pass; consequently a `STARTING` VM with counter
`-2` is still `STARTING` after 2 passes and transitions to `READY` after
exactly 3 passes. -/
theorem starting_countdown (vm : VmInfo) (h : vm.state = VmState.STARTING) :
    (vm.last_idle < 0 →
      stepStartingVm vm = { vm with last_idle := vm.last_idle + 1 }) ∧
    (0 ≤ vm.last_idle →
      (stepStartingVm vm).state = VmState.READY ∧
      (stepStartingVm vm).last_idle = 0) ∧
    (stepStartingVm (stepStartingVm startingVmMinusTwo)).state =
      VmState.STARTING ∧
    (stepStartingVm
      (stepStartingVm (stepStartingVm startingVmMinusTwo))).state =
      VmState.READY := by
  refine ⟨?_, ?_, by decide, by decide⟩
  · intro hlt
    unfold stepStartingVm
    rw [if_pos h, if_neg (by omega)]
  · intro hge
    unfold stepStartingVm
    rw [if_pos h, if_pos hge]
    exact ⟨rfl, rfl⟩

/-- C5 witness: the amended theorem evaluated at the Scenario A VM. -/
theorem starting_countdown_witness :
    stepStartingVm startingVmMinusTwo =
      { startingVmMinusTwo with
        last_idle := startingVmMinusTwo.last_idle + 1 } :=
  (starting_countdown startingVmMinusTwo rfl).1 (by decide)

/-- C7: the `before` hook terminates the harness cleanly (exit status 0)
exactly when the jobs table is empty and the batch system reports no
future jobs, closing the open output file first; in every other
situation it does not terminate the loop and leaves the harness state
unchanged. -/
theorem before_termination (h : HarnessState) :
    (h.jobs_count = 0 ∧ h.future_jobs_count = 0 →
      before h = BeforeResult.exited 0 { h with output_open := false }) ∧
    (¬(h.jobs_count = 0 ∧ h.future_jobs_count = 0) →
      before h = BeforeResult.proceeded h) := by
  constructor
  · intro hc
    unfold before
    rw [if_pos hc]
  · intro hc
    unfold before
    rw [if_neg hc]

/-- C7 witness: the theorem evaluated at a drained harness and at a
harness with one job left. -/
theorem before_termination_witness :
    before { jobs_count := 0, future_jobs_count := 0, output_open := true } =
      BeforeResult.exited 0
        { jobs_count := 0, future_jobs_count := 0, output_open := false } ∧
    before { jobs_count := 1, future_jobs_count := 0, output_open := true } =
      BeforeResult.proceeded
        { jobs_count := 1, future_jobs_count := 0, output_open := true } :=
  ⟨(before_termination
      { jobs_count := 0, future_jobs_count := 0, output_open := true }).1
      ⟨rfl, rfl⟩,
   (before_termination
      { jobs_count := 1, future_jobs_count := 0, output_open := true }).2
      (by simp)⟩

/-- C8: constructing a `VmInfo` record without a `vmid` always fails
with a validation error at construction time, whatever the other
attributes are; no record value is produced, so a malformed record can
never enter the VM table. -/
theorem vminfo_requires_vmid (attrs : VmCtorAttrs) (h : attrs.vmid = none) :
    VmInfo.make attrs = Except.error ValidationError.missingVmId ∧
    ∀ vm : VmInfo, VmInfo.make attrs ≠ Except.ok vm := by
  refine ⟨by simp [VmInfo.make, h], ?_⟩
  intro vm hok
  simp [VmInfo.make, h] at hok

/-- C8 witness: the theorem evaluated at the empty attribute bag, the
input of `test_vminfo.py`. -/
theorem vminfo_requires_vmid_witness :
    VmInfo.make {} = Except.error ValidationError.missingVmId :=
  (vminfo_requires_vmid {} rfl).1

/-- C9: the three policy functions are pure with respect to the
orchestrator state — threading the state through each call returns it
unchanged, so the `vms` table, the `jobs` table, the `candidates` list
and every record in them are exactly as before the call. -/
theorem policies_leave_state_unchanged (max_idle : Int) (s : SimState)
    (job : JobInfo) (vm : VmInfo) :
    (is_cloud_candidateS s job).2 = s ∧
    (is_new_vm_neededS s).2 = s ∧
    (can_vm_be_stoppedS max_idle s vm).2 = s :=
  ⟨rfl, rfl, rfl⟩

/-- The dispatch pass changes only the `jobs` field of the VM records:
ids, states, idle counters, permanence flags and node names all pass
through untouched. -/
theorem dispatchVms_shell (t : Int) (vms : List VmInfo) :
    ∀ cands jobs,
      ((dispatchVms t vms cands jobs).2.2).map vmShell = vms.map vmShell := by
  induction vms with
  | nil => intro cands jobs; rfl
  | cons vm rest ih =>
    intro cands jobs
    simp only [dispatchVms]
    split
    next hc =>
      cases hlast : cands.getLast? with
      | none => simp
      | some j => simp [vmShell, ih]
    next hc => simp [vmShell, ih]

/-- C4 counterexample: a dispatch pass that assigns pending job 7 to a
`READY` VM whose idle counter stands at 5 leaves that counter at 5 — it
is not reset to 0 as the claim states. -/
theorem dispatch_does_not_reset_idle :
    ((dispatchVms 100 [vmReady5] [7] [job7]).2.2.map
      (fun v => v.last_idle)) = [5] ∧
    ((dispatchVms 100 [vmReady5] [7] [job7]).2.2.map
      (fun v => v.jobs)) = [[7]] ∧
    (5 : Int) ≠ 0 := by
  refine ⟨by decide, by decide, by decide⟩

/-- C4 (amended): whenever the dispatch step assigns a pending job to a
`READY` VM, it marks the job `RUNNING`, records its exec node and
running-at time, and adds the job id to the VM's job set — but it leaves
the VM's idle counter (and every other non-`jobs` field of every VM)
unchanged; no idle counter is reset to 0 by the dispatch step. -/
theorem dispatch_assign_actions (t : Int) (vms : List VmInfo)
    (cands : List Nat) (jobs : List JobInfo) :
    ((dispatchVms t vms cands jobs).2.2).map vmShell = vms.map vmShell ∧
    dispatchVms 100 [vmReady5] [7] [job7] =
      ([],
       [{ job7 with
          state := JobState.RUNNING, exec_node_name := some "node-r",
          running_at := some 100 }],
       [{ vmReady5 with jobs := [7] }]) :=
  ⟨dispatchVms_shell t vms cands jobs, by decide⟩

/-- Lemma: `find?` commutes with a `map` that preserves the search predicate. -/
theorem find?_map_of_pred {α : Type} (f : α → α) (p : α → Bool)
    (hp : ∀ a, p (f a) = p a) (l : List α) :
    (l.map f).find? p = (l.find? p).map f := by
  induction l with
  | nil => rfl
  | cons a l ih =>
    by_cases h : p a = true
    · rw [List.map_cons, List.find?_cons_of_pos _ (by rw [hp]; exact h),
        List.find?_cons_of_pos _ h]
      rfl
    · rw [List.map_cons,
        List.find?_cons_of_neg _ (by rw [hp]; simpa using h),
        List.find?_cons_of_neg _ (by simpa using h), ih]

/-- The record update applied by `setRunning` keeps the job id. -/
theorem setRunning_upd_jobid (j : Nat) (node : Option String) (t : Int)
    (job : JobInfo) :
    (if job.jobid = j then runningUpdate node t job else job).jobid =
      job.jobid := by
  unfold runningUpdate
  split <;> rfl

/-- Lemma: `find?` by job id on a `setRunning` table finds the (possibly
updated) record found in the original table. -/
theorem find?_setRunning (jobs : List JobInfo) (j jq : Nat)
    (node : Option String) (t : Int) :
    (setRunning jobs j node t).find? (fun job => job.jobid == jq) =
      (jobs.find? (fun job => job.jobid == jq)).map
        (fun job => if job.jobid = j then runningUpdate node t job else job) := by
  unfold setRunning
  exact find?_map_of_pred _ _
    (fun a => by rw [setRunning_upd_jobid]) jobs

/-- Lemma: `setRunning` of a different job id does not change whether `jq` is
pending. -/
theorem isPendingIn_setRunning (jobs : List JobInfo) (j jq : Nat)
    (node : Option String) (t : Int) (hne : jq ≠ j) :
    isPendingIn (setRunning jobs j node t) jq = isPendingIn jobs jq := by
  unfold isPendingIn
  rw [find?_setRunning]
  cases h : jobs.find? (fun job => job.jobid == jq) with
  | none => rfl
  | some job =>
    have hid : job.jobid = jq := by simpa using List.find?_some h
    simp only [Option.map]
    rw [if_neg (by rw [hid]; exact hne)]

/-- After `setRunning jobs j`, job `j` is no longer pending. -/
theorem isPendingIn_setRunning_self (jobs : List JobInfo) (j : Nat)
    (node : Option String) (t : Int) :
    isPendingIn (setRunning jobs j node t) j = false := by
  unfold isPendingIn
  rw [find?_setRunning]
  cases h : jobs.find? (fun job => job.jobid == j) with
  | none => rfl
  | some job =>
    have hid : job.jobid = j := by simpa using List.find?_some h
    simp [hid, runningUpdate]

/-- Lemma: `setRunning` preserves "present and past `PENDING`". -/
theorem assignedOk_setRunning (jobs : List JobInfo) (j jq : Nat)
    (node : Option String) (t : Int) (h : assignedOk jobs jq = true) :
    assignedOk (setRunning jobs j node t) jq = true := by
  unfold assignedOk at *
  rw [find?_setRunning]
  cases hf : jobs.find? (fun job => job.jobid == jq) with
  | none => rw [hf] at h; exact absurd h (by simp)
  | some job =>
    rw [hf] at h
    simp only [Option.map]
    split
    · simp [runningUpdate]
    · exact h

/-- A job that was pending becomes "present and past `PENDING`" once
`setRunning` marks it running. -/
theorem assignedOk_setRunning_of_pending (jobs : List JobInfo) (j : Nat)
    (node : Option String) (t : Int) (h : isPendingIn jobs j = true) :
    assignedOk (setRunning jobs j node t) j = true := by
  unfold isPendingIn at h
  unfold assignedOk
  rw [find?_setRunning]
  cases hf : jobs.find? (fun job => job.jobid == j) with
  | none => rw [hf] at h; exact absurd h (by simp)
  | some job =>
    have hid : job.jobid = j := by simpa using List.find?_some hf
    simp [hid, runningUpdate]

/-- Lemma: `setRunning` does not change the id column of the jobs table. -/
theorem setRunning_ids (jobs : List JobInfo) (j : Nat)
    (node : Option String) (t : Int) :
    (setRunning jobs j node t).map (fun job => job.jobid) =
      jobs.map (fun job => job.jobid) := by
  unfold setRunning
  rw [List.map_map]
  exact List.map_congr_left (fun a _ => setRunning_upd_jobid j node t a)

/-- No job id is simultaneously pending and past pending. -/
theorem isPendingIn_not_assignedOk (jobs : List JobInfo) (j : Nat)
    (hp : isPendingIn jobs j = true) (ha : assignedOk jobs j = true) :
    False := by
  unfold isPendingIn at hp
  unfold assignedOk at ha
  cases h : jobs.find? (fun job => job.jobid == j) with
  | none =>
    rw [h] at hp
    exact absurd hp (by simp)
  | some job =>
    rw [h] at hp ha
    simp only [] at hp ha
    rw [hp] at ha
    exact absurd ha (by simp)

/-- Membership in the flattened assigned-jobs sets of a VM table. -/
theorem mem_flatten_jobs {vms : List VmInfo} {j : Nat} :
    j ∈ ((vms.map (fun v => v.jobs)).flatten) ↔
      ∃ vm ∈ vms, j ∈ vm.jobs := by
  simp [List.mem_flatten]

/-- The last element of a duplicate-free list does not occur in its
`dropLast`. -/
theorem getLast_not_mem_dropLast {α : Type} {l : List α} {a : α}
    (hn : l.Nodup) (h : l.getLast? = some a) : a ∉ l.dropLast := by
  have he := List.dropLast_append_getLast? a h
  intro hmem
  rw [← he] at hn
  rcases List.nodup_append.mp hn with ⟨_, _, hdisj⟩
  exact hdisj hmem (by simp)

/-- The dispatch pass preserves the bookkeeping invariant and accounts
for every popped candidate: the assigned job ids stay pairwise distinct,
every assigned id is past `PENDING` in the resulting table, assignments
only come from the former VM assignments or the candidate list, the
leftover candidates are a sub-list of the original ones and still
pending, and every candidate that was popped ends up assigned. -/
theorem dispatchVms_inv (t : Int) (vms : List VmInfo) :
    ∀ cands jobs,
      cands.Nodup →
      (∀ j ∈ cands, isPendingIn jobs j = true) →
      ((vms.map (fun v => v.jobs)).flatten).Nodup →
      (∀ vm ∈ vms, ∀ j ∈ vm.jobs, assignedOk jobs j = true) →
      (((dispatchVms t vms cands jobs).2.2.map
        (fun v => v.jobs)).flatten).Nodup ∧
      (∀ vm ∈ (dispatchVms t vms cands jobs).2.2, ∀ j ∈ vm.jobs,
        assignedOk (dispatchVms t vms cands jobs).2.1 j = true) ∧
      (∀ j, assignedOk jobs j = true →
        assignedOk (dispatchVms t vms cands jobs).2.1 j = true) ∧
      (∀ j ∈ (dispatchVms t vms cands jobs).1,
        isPendingIn (dispatchVms t vms cands jobs).2.1 j = true) ∧
      (dispatchVms t vms cands jobs).1.Sublist cands ∧
      (∀ j, j ∈ ((dispatchVms t vms cands jobs).2.2.map
          (fun v => v.jobs)).flatten →
        j ∈ ((vms.map (fun v => v.jobs)).flatten) ∨ j ∈ cands) ∧
      (∀ j ∈ cands, j ∉ (dispatchVms t vms cands jobs).1 →
        j ∈ ((dispatchVms t vms cands jobs).2.2.map
          (fun v => v.jobs)).flatten) ∧
      ((dispatchVms t vms cands jobs).2.1.map (fun job => job.jobid) =
        jobs.map (fun job => job.jobid)) := by
  induction vms with
  | nil =>
    intro cands jobs hc hcp hvd hvr
    simp only [dispatchVms]
    exact ⟨by simp, by simp, fun j h => h, hcp, List.Sublist.refl _,
      fun j h => by simp at h, fun j hj hnj => absurd hj hnj, by trivial⟩
  | cons vm rest ih =>
    intro cands jobs hc hcp hvd hvr
    simp only [dispatchVms]
    split
    next hif =>
      cases hlast : cands.getLast? with
      | none =>
        exact ⟨hvd, fun vm' h j hj => hvr vm' h j hj, fun j h => h, hcp,
          List.Sublist.refl _, fun j h => Or.inl h,
          fun j hj hnj => absurd hj hnj, rfl⟩
      | some j =>
        have hjmem : j ∈ cands := List.mem_of_getLast?_eq_some hlast
        have hjpend : isPendingIn jobs j = true := hcp j hjmem
        have hjnotdrop : j ∉ cands.dropLast :=
          getLast_not_mem_dropLast hc hlast
        have hsplit : cands.dropLast ++ [j] = cands :=
          List.dropLast_append_getLast? j hlast
        have hc2 : cands.dropLast.Nodup :=
          (List.dropLast_sublist cands).nodup hc
        have hcp2 : ∀ jq ∈ cands.dropLast,
            isPendingIn (setRunning jobs j vm.nodename t) jq = true := by
          intro jq hjq
          have hne : jq ≠ j := fun he => hjnotdrop (he ▸ hjq)
          rw [isPendingIn_setRunning jobs j jq vm.nodename t hne]
          exact hcp jq ((List.dropLast_sublist cands).subset hjq)
        have hvd2 : ((rest.map (fun v => v.jobs)).flatten).Nodup := by
          rw [List.map_cons, List.flatten_cons] at hvd
          exact (List.nodup_append.mp hvd).2.1
        have hvr2 : ∀ vm' ∈ rest, ∀ jq ∈ vm'.jobs,
            assignedOk (setRunning jobs j vm.nodename t) jq = true := by
          intro vm' hm jq hjq
          exact assignedOk_setRunning _ _ _ _ _
            (hvr vm' (List.mem_cons_of_mem _ hm) jq hjq)
        obtain ⟨A2, B2, C2, D2, E2, F2, H2, G2⟩ :=
          ih cands.dropLast (setRunning jobs j vm.nodename t)
            hc2 hcp2 hvd2 hvr2
        have hjnotout : j ∉
            ((dispatchVms t rest cands.dropLast
              (setRunning jobs j vm.nodename t)).2.2.map
                (fun v => v.jobs)).flatten := by
          intro hjin
          rcases F2 j hjin with hin | hin
          · rcases mem_flatten_jobs.mp hin with ⟨vm', hvm', hjvm'⟩
            exact isPendingIn_not_assignedOk jobs j hjpend
              (hvr vm' (List.mem_cons_of_mem _ hvm') j hjvm')
          · exact hjnotdrop hin
        have hinsert : vm.jobs.insert j = [j] := by
          rw [hif.2, List.insert_of_not_mem (by simp)]
        refine ⟨?_, ?_, ?_, D2, E2.trans (List.dropLast_sublist cands),
          ?_, ?_, G2.trans (setRunning_ids jobs j vm.nodename t)⟩
        · rw [List.map_cons, List.flatten_cons, hinsert]
          exact List.nodup_cons.mpr ⟨hjnotout, A2⟩
        · intro vm' hm
          rcases List.mem_cons.mp hm with rfl | hm2

          · intro jq hjq
            rw [hinsert] at hjq
            rcases List.mem_singleton.mp hjq with rfl
            exact C2 jq
              (assignedOk_setRunning_of_pending jobs jq vm.nodename t hjpend)
          · exact B2 vm' hm2
        · intro jq h
          exact C2 jq (assignedOk_setRunning _ _ _ _ _ h)
        · intro jq h
          rw [List.map_cons, List.flatten_cons, hinsert] at h
          rcases List.mem_append.mp h with h1 | h2
          · rcases List.mem_singleton.mp h1 with rfl
            exact Or.inr hjmem
          · rcases F2 jq h2 with hin | hin
            · refine Or.inl ?_
              rw [List.map_cons, List.flatten_cons]
              exact List.mem_append_right _ hin
            · exact Or.inr ((List.dropLast_sublist cands).subset hin)
        · intro jq hjq hnj
          rw [List.map_cons, List.flatten_cons, hinsert]
          by_cases hje : jq = j
          · subst hje
            exact List.mem_append_left _ (List.mem_singleton.mpr rfl)
          · have hdrop : jq ∈ cands.dropLast := by
              rw [← hsplit] at hjq
              rcases List.mem_append.mp hjq with h1 | h1
              · exact h1
              · exact absurd (List.mem_singleton.mp h1) hje
            exact List.mem_append_right _ (H2 jq hdrop hnj)
    next hif =>
      have hvd_parts := List.nodup_append.mp
        (by rw [List.map_cons, List.flatten_cons] at hvd; exact hvd)
      obtain ⟨hnvm, hvdrest, hdisj⟩ := hvd_parts
      obtain ⟨A2, B2, C2, D2, E2, F2, H2, G2⟩ :=
        ih cands jobs hc hcp hvdrest
          (fun vm' hm jq hjq => hvr vm' (List.mem_cons_of_mem _ hm) jq hjq)
      refine ⟨?_, ?_, C2, D2, E2, ?_, ?_, G2⟩
      · rw [List.map_cons, List.flatten_cons]
        refine List.nodup_append.mpr ⟨hnvm, A2, ?_⟩
        intro jq hjvm hjout
        rcases F2 jq hjout with hin | hin
        · exact hdisj hjvm hin
        · exact isPendingIn_not_assignedOk jobs jq (hcp jq hin)
            (hvr vm (List.mem_cons_self vm rest) jq hjvm)
      · intro vm' hm
        rcases List.mem_cons.mp hm with rfl | hm2
        · exact fun jq hjq =>
            C2 jq (hvr vm' (List.mem_cons_self vm' rest) jq hjq)
        · exact B2 vm' hm2
      · intro jq h
        rw [List.map_cons, List.flatten_cons] at h
        rcases List.mem_append.mp h with h1 | h2
        · refine Or.inl ?_
          rw [List.map_cons, List.flatten_cons]
          exact List.mem_append_left _ h1
        · rcases F2 jq h2 with hin | hin
          · refine Or.inl ?_
            rw [List.map_cons, List.flatten_cons]
            exact List.mem_append_right _ hin
          · exact Or.inr hin
      · intro jq hjq hnj
        rw [List.map_cons, List.flatten_cons]
        exact List.mem_append_right _ (H2 jq hjq hnj)

/-- Lemma: `mergeJob` keeps the job id. -/
theorem mergeJob_jobid (job : JobInfo) (snap : JobSnapshot) :
    (mergeJob job snap).jobid = job.jobid := by
  unfold mergeJob
  split <;> rfl

/-- Lemma: `mergeJob` never moves a job back to `PENDING`. -/
theorem mergeJob_not_pending (job : JobInfo) (snap : JobSnapshot)
    (h : (job.state == JobState.PENDING) = false) :
    ((mergeJob job snap).state == JobState.PENDING) = false := by
  unfold mergeJob stateRank at *
  cases hj : job.state <;> cases hs : snap.state <;> simp_all

/-- Lemma: `applySnapshot` keeps the id column duplicate-free. -/
theorem applySnapshot_ids_nodup (jobs : List JobInfo) (snap : JobSnapshot)
    (h : (jobs.map (fun job => job.jobid)).Nodup) :
    ((applySnapshot jobs snap).map (fun job => job.jobid)).Nodup := by
  unfold applySnapshot
  split
  next hin =>
    have : (jobs.map (fun job =>
        if job.jobid = snap.id then mergeJob job snap else job)).map
          (fun job => job.jobid) = jobs.map (fun job => job.jobid) := by
      rw [List.map_map]
      refine List.map_congr_left (fun a _ => ?_)
      show (if a.jobid = snap.id then mergeJob a snap else a).jobid = a.jobid
      split
      · exact mergeJob_jobid a snap
      · rfl
    rw [this]
    exact h
  next hin =>
    rw [List.map_append]
    refine List.nodup_append.mpr ⟨h, by simp, ?_⟩
    intro x hx hx2
    simp only [List.map_cons, List.map_nil, List.mem_singleton] at hx2
    subst hx2
    rcases List.mem_map.mp hx with ⟨job, hjm, hje⟩
    have : jobs.any (fun job => job.jobid == snap.id) = true :=
      List.any_eq_true.mpr ⟨job, hjm, by simp [hje]⟩
    exact hin this

/-- Lemma: `applySnapshot` preserves "present and past `PENDING`". -/
theorem assignedOk_applySnapshot (jobs : List JobInfo)
    (snap : JobSnapshot) (j : Nat) (h : assignedOk jobs j = true) :
    assignedOk (applySnapshot jobs snap) j = true := by
  unfold applySnapshot
  split
  next hin =>
    unfold assignedOk at *
    rw [find?_map_of_pred _ _ (fun a => by
      show ((if a.jobid = snap.id then mergeJob a snap else a).jobid == j) =
        (a.jobid == j)
      split
      · rw [mergeJob_jobid]
      · rfl)]
    cases hf : jobs.find? (fun job => job.jobid == j) with
    | none => rw [hf] at h; exact absurd h (by simp)
    | some job =>
      rw [hf] at h
      simp only [Option.map]
      split
      · simpa using mergeJob_not_pending job snap (by simpa using h)
      · exact h
  next hin =>
    unfold assignedOk at *
    rw [List.find?_append]
    cases hf : jobs.find? (fun job => job.jobid == j) with
    | none => rw [hf] at h; exact absurd h (by simp)
    | some job =>
      rw [hf] at h
      simpa using h

/-- Folding a batch report over the jobs table keeps the id column
duplicate-free. -/
theorem foldl_applySnapshot_ids_nodup (batch : List JobSnapshot) :
    ∀ jobs : List JobInfo, (jobs.map (fun job => job.jobid)).Nodup →
      ((batch.foldl applySnapshot jobs).map (fun job => job.jobid)).Nodup := by
  induction batch with
  | nil => exact fun jobs h => h
  | cons snap bs ih =>
    intro jobs h
    exact ih _ (applySnapshot_ids_nodup jobs snap h)

/-- Folding a batch report over the jobs table preserves "present and
past `PENDING`". -/
theorem foldl_applySnapshot_assignedOk (batch : List JobSnapshot) :
    ∀ jobs : List JobInfo, ∀ j, assignedOk jobs j = true →
      assignedOk (batch.foldl applySnapshot jobs) j = true := by
  induction batch with
  | nil => exact fun jobs j h => h
  | cons snap bs ih =>
    intro jobs j h
    exact ih _ j (assignedOk_applySnapshot jobs snap j h)

/-- On a table with duplicate-free ids, `find?` by the id of a member
record returns that record. -/
theorem find?_eq_of_mem_nodup {jobs : List JobInfo} {job : JobInfo}
    (hids : (jobs.map (fun jb => jb.jobid)).Nodup) (hmem : job ∈ jobs) :
    jobs.find? (fun jb => jb.jobid == job.jobid) = some job := by
  induction jobs with
  | nil => cases hmem
  | cons a l ih =>
    rw [List.map_cons, List.nodup_cons] at hids
    rcases List.mem_cons.mp hmem with rfl | hmem2
    · rw [List.find?_cons_of_pos _ (by simp)]
    · have hne : a.jobid ≠ job.jobid := by
        intro he
        exact hids.1 (he ▸ List.mem_map_of_mem _ hmem2)
      rw [List.find?_cons_of_neg _ (by simpa using hne)]
      exact ih hids.2 hmem2

/-- Every candidate recomputed by `refreshJobs` is a pending job of the
refreshed table. -/
theorem refreshJobs_cand_pending (s : SimState) (batch : List JobSnapshot)
    (hids : (((refreshJobs s batch).jobs).map (fun job => job.jobid)).Nodup) :
    ∀ j ∈ (refreshJobs s batch).candidates,
      isPendingIn (refreshJobs s batch).jobs j = true := by
  intro j hj
  unfold refreshJobs at *
  simp only [] at hj ⊢
  rcases List.mem_map.mp hj with ⟨job, hjm, hje⟩
  have hmem : job ∈ batch.foldl applySnapshot s.jobs :=
    List.mem_of_mem_filter hjm
  have hpend := (List.mem_filter.mp hjm).2
  unfold isPendingIn
  subst hje
  rw [find?_eq_of_mem_nodup hids hmem]
  simpa [is_cloud_candidate] using hpend

/-- Lemma: `refreshJobs` preserves the bookkeeping invariant. -/
theorem refreshJobs_inv (s : SimState) (batch : List JobSnapshot)
    (h : Inv s) : Inv (refreshJobs s batch) := by
  obtain ⟨hA, hB, hC, hD, hE⟩ := h
  have hids : (((batch.foldl applySnapshot s.jobs)).map
      (fun job => job.jobid)).Nodup :=
    foldl_applySnapshot_ids_nodup batch s.jobs hE
  refine ⟨hA, ?_, ?_, ?_, hids⟩
  · intro vm hvm j hj
    exact foldl_applySnapshot_assignedOk batch s.jobs j (hB vm hvm j hj)
  · show ((((batch.foldl applySnapshot s.jobs)).filter _).map
      (fun job => job.jobid)).Nodup
    exact ((List.filter_sublist _).map _).nodup hids
  · exact refreshJobs_cand_pending s batch hids

/-- The readiness countdown never touches a VM's assigned-jobs set. -/
theorem stepStartingVm_jobs (vm : VmInfo) :
    (stepStartingVm vm).jobs = vm.jobs := by
  unfold stepStartingVm vm_is_ready
  split
  · split <;> rfl
  · rfl

/-- The readiness countdown step preserves the bookkeeping invariant. -/
theorem startingStep_inv (s : SimState) (h : Inv s) :
    Inv (startingStep s) := by
  obtain ⟨hA, hB, hC, hD, hE⟩ := h
  have hflat : (((s.vms.map stepStartingVm).map
      (fun v => v.jobs)).flatten) = ((s.vms.map (fun v => v.jobs)).flatten) := by
    rw [List.map_map]
    congr 1
    exact List.map_congr_left (fun v _ => stepStartingVm_jobs v)
  refine ⟨?_, ?_, hC, hD, hE⟩
  · show (((s.vms.map stepStartingVm).map (fun v => v.jobs)).flatten).Nodup
    rw [hflat]
    exact hA
  · intro vm hvm j hj
    rcases List.mem_map.mp hvm with ⟨vm0, hvm0, hve⟩
    subst hve
    rw [stepStartingVm_jobs vm0] at hj
    exact hB vm0 hvm0 j hj

/-- The dispatch pass preserves the bookkeeping invariant. -/
theorem dispatchStep_inv (t : Int) (s : SimState) (h : Inv s) :
    Inv (dispatchStep t s) := by
  obtain ⟨hA, hB, hC, hD, hE⟩ := h
  obtain ⟨A2, B2, C2, D2, E2, F2, H2, G2⟩ :=
    dispatchVms_inv t s.vms s.candidates s.jobs hC hD hA hB
  refine ⟨A2, B2, ?_, D2, ?_⟩
  · exact E2.nodup hC
  · show (((dispatchVms t s.vms s.candidates s.jobs).2.1).map
      (fun job => job.jobid)).Nodup
    rw [G2]
    exact hE

/-- A list of VMs all created with empty job sets contributes nothing to
the flattened assignments. -/
theorem flatten_jobs_nil {vms : List VmInfo}
    (h : ∀ v ∈ vms, v.jobs = []) :
    ((vms.map (fun v => v.jobs)).flatten) = [] := by
  induction vms with
  | nil => rfl
  | cons v rest ih =>
    rw [List.map_cons, List.flatten_cons, h v (List.mem_cons_self v rest),
      ih (fun v2 hv2 => h v2 (List.mem_cons_of_mem _ hv2))]
    rfl

/-- The scale-out step preserves the bookkeeping invariant: every VM it
adds starts with an empty assigned-jobs set. -/
theorem scaleOut_inv (cfg : Config) (s : SimState) (h : Inv s) :
    Inv (scaleOut cfg s) := by
  obtain ⟨hA, hB, hC, hD, hE⟩ := h
  unfold scaleOut
  split
  next hneed =>
    have hnew : ∀ v ∈ (List.range
        (min cfg.max_delta (cfg.max_vms - s.vms.length))).map
          (fun i => sim_new_vm cfg.startup_delay
            (toString (s.next_vmid + i)) {}), v.jobs = [] := by
      intro v hv
      rcases List.mem_map.mp hv with ⟨i, _, hve⟩
      subst hve
      rfl
    refine ⟨?_, ?_, hC, hD, hE⟩
    · show ((((s.vms ++ _)).map (fun v => v.jobs)).flatten).Nodup
      rw [List.map_append, List.flatten_append, flatten_jobs_nil hnew,
        List.append_nil]
      exact hA
    · intro vm hvm j hj
      rcases List.mem_append.mp hvm with hin | hin
      · exact hB vm hin j hj
      · rw [hnew vm hin] at hj
        cases hj
  next hneed =>
    exact ⟨hA, hB, hC, hD, hE⟩

/-- Lemma: `removeStoppable` removes entries without reordering: the result is
a sub-list of the input. -/
theorem removeStoppable_sublist (mi : Int) :
    ∀ (l : List VmInfo) (b : Nat), (removeStoppable b mi l).Sublist l := by
  intro l
  induction l with
  | nil => intro b; exact List.Sublist.refl _
  | cons vm rest ih =>
    intro b
    unfold removeStoppable
    split
    · exact (ih _).trans (List.sublist_cons_self vm rest)
    · exact (ih b).cons₂ vm

/-- Flattened assignments of a sub-list of the VM table form a sub-list
of the flattened assignments. -/
theorem flatten_map_sublist {l₁ l₂ : List VmInfo} (h : l₁.Sublist l₂) :
    ((l₁.map (fun v => v.jobs)).flatten).Sublist
      ((l₂.map (fun v => v.jobs)).flatten) := by
  induction h with
  | slnil => exact List.Sublist.refl _
  | cons a _ ih =>
    rw [List.map_cons, List.flatten_cons]
    exact ih.trans (List.sublist_append_right _ _)
  | cons₂ a _ ih =>
    rw [List.map_cons, List.flatten_cons, List.map_cons, List.flatten_cons]
    exact (List.Sublist.refl a.jobs).append ih

/-- The scale-in step preserves the bookkeeping invariant: it only
removes VM records. -/
theorem scaleIn_inv (cfg : Config) (s : SimState) (h : Inv s) :
    Inv (scaleIn cfg s) := by
  obtain ⟨hA, hB, hC, hD, hE⟩ := h
  have hsub := removeStoppable_sublist cfg.max_idle s.vms cfg.max_delta
  refine ⟨?_, ?_, hC, hD, hE⟩
  · exact (flatten_map_sublist hsub).nodup hA
  · intro vm hvm j hj
    exact hB vm (hsub.subset hvm) j hj

/-- One full cycle preserves the bookkeeping invariant. -/
theorem cycle_inv (cfg : Config) (s : SimState) (inp : CycleInput)
    (h : Inv s) : Inv (cycle cfg s inp) :=
  scaleIn_inv cfg _
    (scaleOut_inv cfg _
      (dispatchStep_inv inp.tnow _
        (startingStep_inv _
          (refreshJobs_inv s inp.batch h))))

/-- Any number of cycles preserves the bookkeeping invariant. -/
theorem runCycles_inv (cfg : Config) (inps : List CycleInput) :
    ∀ s : SimState, Inv s → Inv (runCycles cfg s inps) := by
  induction inps with
  | nil => exact fun s h => h
  | cons inp rest ih =>
    intro s h
    exact ih _ (cycle_inv cfg s inp h)

/-- Duplicate-freeness of the flattened assignments gives pairwise
disjointness of the per-VM assigned-jobs sets. -/
theorem pairwise_disjoint_of_flatten_nodup {vms : List VmInfo}
    (h : ((vms.map (fun v => v.jobs)).flatten).Nodup) :
    List.Pairwise (fun v₁ v₂ => ∀ j, j ∈ v₁.jobs → j ∉ v₂.jobs) vms := by
  have hp := (List.nodup_flatten.mp h).2
  rw [List.pairwise_map] at hp
  exact hp.imp (fun hd j hj₁ hj₂ => hd hj₁ hj₂)

/-- C1: no double-dispatch — starting from any state satisfying the
bookkeeping invariant, after any sequence of cycles the invariant still
holds and a job id never appears in the assigned-jobs sets of two
distinct VM entries; once a job id is in some VM's assigned set it is
excluded from the candidate list; and within one dispatch pass each
candidate that is popped is added to the job set of exactly one VM (it
lands in some VM's set, and the pairwise disjointness makes that VM
unique). -/
theorem no_double_dispatch (cfg : Config) (inps : List CycleInput)
    (t : Int) (s : SimState) (h : Inv s) :
    Inv (runCycles cfg s inps) ∧
    List.Pairwise (fun v₁ v₂ => ∀ j, j ∈ v₁.jobs → j ∉ v₂.jobs)
      (runCycles cfg s inps).vms ∧
    (∀ vm ∈ (runCycles cfg s inps).vms, ∀ j ∈ vm.jobs,
      j ∉ (runCycles cfg s inps).candidates) ∧
    (∀ j ∈ s.candidates, j ∉ (dispatchStep t s).candidates →
      j ∈ (((dispatchStep t s).vms.map (fun v => v.jobs)).flatten)) ∧
    List.Pairwise (fun v₁ v₂ => ∀ j, j ∈ v₁.jobs → j ∉ v₂.jobs)
      (dispatchStep t s).vms := by
  obtain ⟨hA, hB, hC, hD, hE⟩ := runCycles_inv cfg inps s h
  obtain ⟨hA0, hB0, hC0, hD0, hE0⟩ := h
  obtain ⟨A2, B2, C2, D2, E2, F2, H2, G2⟩ :=
    dispatchVms_inv t s.vms s.candidates s.jobs hC0 hD0 hA0 hB0
  refine ⟨⟨hA, hB, hC, hD, hE⟩, pairwise_disjoint_of_flatten_nodup hA,
    ?_, H2, pairwise_disjoint_of_flatten_nodup A2⟩
  intro vm hvm j hj hjc
  exact isPendingIn_not_assignedOk _ j (hD j hjc) (hB vm hvm j hj)

/-- C1 witness: the theorem applied to a concrete initial state (one
permanent cluster node, empty tables) and one concrete cycle input. -/
theorem no_double_dispatch_witness :
    Inv demoState ∧
    List.Pairwise (fun v₁ v₂ => ∀ j, j ∈ v₁.jobs → j ∉ v₂.jobs)
      (runCycles demoCfg demoState demoInps).vms :=
  ⟨by decide,
   (no_double_dispatch demoCfg demoInps 0 demoState (by decide)).2.1⟩

/-- C10: the simulation's `new_vm` override discards every keyword
argument supplied by the caller — any two attribute bags produce the
same record — and the record it creates always has
`ever_running = false` and `last_idle = -startup_delay`. -/
theorem sim_new_vm_ignores_attrs (startup_delay : Int) (vmid : String)
    (attrs attrs2 : VmAttrs) :
    sim_new_vm startup_delay vmid attrs =
      sim_new_vm startup_delay vmid attrs2 ∧
    (sim_new_vm startup_delay vmid attrs).ever_running = false ∧
    (sim_new_vm startup_delay vmid attrs).last_idle = -startup_delay :=
  ⟨rfl, rfl, rfl⟩

end VmMad
